import Mathlib

/-!
Shallow embedding of the Polarion n8n node (src/nodes/Polarion/Polarion.node.ts
and the credential descriptor). The per-item dispatch logic of
`Polarion.execute`, the request helper `polarionApiRequest`, the response
normalization and the fail-tolerant loop are translated into executable Lean
definitions. Host-environment primitives that the code calls (`JSON.parse`,
the HTTP transport) are passed in as explicit function parameters; the
JavaScript builtins `encodeURIComponent` and base64 (`Buffer.toString`) are
modelled by their standard semantics.
-/

set_option maxHeartbeats 1000000

/-- JSON values as decoded by the host (`json: true` responses, parsed bodies). -/
inductive Json where
  | null
  | bool (b : Bool)
  | num (n : Int)
  | str (s : String)
  | arr (elems : List Json)
  | obj (fields : List (String × Json))

/-- First-match association-list lookup, modelling JavaScript property access. -/
def alookup {α : Type} : List (String × α) → String → Option α
  | [], _ => none
  | (k, v) :: rest, key => if k = key then some v else alookup rest key

/-- Property read `o.k` in JavaScript: only objects have named properties here. -/
def jget : Json → String → Option Json
  | .obj fs, k => alookup fs k
  | _, _ => none

/-- Assignment `o[k] = v` on an object's field list: updates in place if the key
exists (keeping its position, as JavaScript does), else appends. -/
def setKey : List (String × Json) → String → Json → List (String × Json)
  | [], k, v => [(k, v)]
  | (k0, v0) :: rest, k, v =>
    if k0 = k then (k0, v) :: rest else (k0, v0) :: setKey rest k v

/-- Model of `Object.assign(base, j)`: copies the own enumerable properties of
`j` onto `base`. Objects copy their fields; arrays and strings copy their
index properties; primitives copy nothing. -/
def assignJson (base : List (String × Json)) : Json → List (String × Json)
  | .obj fs => fs.foldl (fun acc kv => setKey acc kv.1 kv.2) base
  | .arr xs => (xs.enum).foldl (fun acc iv => setKey acc (toString iv.1) iv.2) base
  | .str s => (s.data.enum).foldl
      (fun acc ic => setKey acc (toString ic.1) (Json.str (String.mk [ic.2]))) base
  | _ => base

/-- Message of the TypeError Node.js throws when `responseData.data` is read
on a null response. -/
def nullDataAccessMsg : String := "Cannot read properties of null (reading 'data')"

/-- Output normalization of `Polarion.execute` (lines 388-396): a `data`
property holding an array is flattened, a bare array is flattened, anything
else is a single record — except a null response, on which the
`responseData.data` property access itself throws a TypeError (caught by the
per-item handler). -/
def normalizeResponse (responseData : Json) : Except String (List Json) :=
  match responseData with
  | Json.null => .error nullDataAccessMsg
  | _ =>
    .ok (match jget responseData "data" with
      | some (Json.arr elems) => elems
      | _ =>
        match responseData with
        | Json.arr elems => elems
        | r => [r])

/-- HTTP methods used by the node. -/
inductive Method where
  | GET
  | POST
  | PUT
  | DELETE
deriving DecidableEq

/-- A query-string value: the code stores strings (`fields`, `query`) and
numbers (`limit`, `skip`). -/
inductive QVal where
  | s (v : String)
  | n (v : Int)
deriving DecidableEq

/-- JavaScript `v || d` on an optional number: `undefined` and `0` are falsy. -/
def jsOrInt (v : Option Int) (d : Int) : Int :=
  match v with
  | some n => if n = 0 then d else n
  | none => d

/-- UTF-8 encoding of a Unicode code point, as a list of bytes. -/
def utf8EncodeChar (n : Nat) : List Nat :=
  if n < 128 then [n]
  else if n < 2048 then [192 + n / 64, 128 + n % 64]
  else if n < 65536 then [224 + n / 4096, 128 + n / 64 % 64, 128 + n % 64]
  else [240 + n / 262144, 128 + n / 4096 % 64, 128 + n / 64 % 64, 128 + n % 64]

/-- UTF-8 bytes of a string (what `Buffer.from(s)` produces). -/
def strUtf8 (s : String) : List Nat :=
  s.data.flatMap (fun c => utf8EncodeChar c.toNat)

/-- Uppercase hexadecimal digits. -/
def hexDigits : List Char :=
  ['0', '1', '2', '3', '4', '5', '6', '7', '8', '9', 'A', 'B', 'C', 'D', 'E', 'F']

/-- Uppercase hexadecimal digit for a nibble. -/
def hexDigitChar (n : Nat) : Char :=
  if h : n < hexDigits.length then hexDigits.get ⟨n, h⟩ else '0'

/-- Percent-encoding of one byte, `%HH` with uppercase hex. -/
def pctByte (b : Nat) : List Char :=
  ['%', hexDigitChar (b / 16), hexDigitChar (b % 16)]

/-- The characters `encodeURIComponent` leaves unescaped:
`A-Z a-z 0-9 - _ . ! ~ * ' ( )`. -/
def isUnreservedJS (c : Char) : Bool :=
  (65 ≤ c.toNat && c.toNat ≤ 90) || (97 ≤ c.toNat && c.toNat ≤ 122) ||
  (48 ≤ c.toNat && c.toNat ≤ 57) ||
  c.toNat == 45 || c.toNat == 95 || c.toNat == 46 || c.toNat == 33 ||
  c.toNat == 126 || c.toNat == 42 || c.toNat == 39 || c.toNat == 40 || c.toNat == 41

/-- Encoding of a single character under `encodeURIComponent`. -/
def encChar (c : Char) : List Char :=
  if isUnreservedJS c then [c]
  else (utf8EncodeChar c.toNat).flatMap pctByte

/-- Model of the JavaScript builtin `encodeURIComponent`. -/
def encodeURIComponent (s : String) : String :=
  String.mk (s.data.flatMap encChar)

/-- Character for a base64 sextet: `A-Z a-z 0-9 + /`. -/
def base64Char (n : Nat) : Char :=
  if n < 26 then Char.ofNat (65 + n)
  else if n < 52 then Char.ofNat (97 + (n - 26))
  else if n < 62 then Char.ofNat (48 + (n - 52))
  else if n = 62 then '+'
  else '/'

/-- Base64 encoding of a byte list, three bytes at a time with `=` padding. -/
def base64Go : List Nat → List Char
  | [] => []
  | [a] => [base64Char (a / 4), base64Char (a % 4 * 16), '=', '=']
  | [a, b] => [base64Char (a / 4), base64Char (a % 4 * 16 + b / 16),
               base64Char (b % 16 * 4), '=']
  | a :: b :: c :: rest =>
    base64Char (a / 4) :: base64Char (a % 4 * 16 + b / 16) ::
    base64Char (b % 16 * 4 + c / 64) :: base64Char (c % 64) :: base64Go rest

/-- Model of `Buffer.from(bytes).toString('base64')`. -/
def base64Encode (bytes : List Nat) : String :=
  String.mk (base64Go bytes)

/-- The stored credential, as declared by the `PolarionApi` credential type:
base URL, authentication method (`basic` or `pat`), and the secrets. -/
structure Credentials where
  baseUrl : String
  authentication : String
  username : String
  password : String
  pat : String

/-- The request options object handed to the host transport
(`this.helpers.request(options)`). -/
structure HttpRequestOptions where
  baseURL : String
  url : String
  method : Method
  body : Json
  qs : List (String × QVal)
  json : Bool
  headers : List (String × String)

/-- The errors `Polarion.execute` and `polarionApiRequest` can throw
(all are `NodeOperationError` in the source; the constructor records which
site threw). -/
inductive ItemError where
  | payloadParse (msg : String)
  | routing (resource : String)
  | config (msg : String)
  | requestFailed (msg : String)
  | typeError (msg : String)
deriving DecidableEq

/-- The `.message` of the thrown error, as pushed into the per-item error
record. -/
def ItemError.message : ItemError → String
  | .payloadParse m => m
  | .routing r => "Resource \"" ++ r ++ "\" routing error."
  | .config m => m
  | .requestFailed m => "Polarion API request failed: " ++ m
  | .typeError m => m

/-- Message thrown when `getCredentials` yields nothing. -/
def credsMissingMsg : String := "Polarion credentials are not set."

/-- Message thrown for an unrecognized authentication method. -/
def invalidAuthMsg : String := "Invalid authentication method specified in credentials."

/-- Model of `polarionApiRequest` up to (but not including) the transport
call: reads the credential, builds the `Authorization` header, and assembles
the request options. A returned error means no request was issued. -/
def polarionApiRequest (creds? : Option Credentials) (method : Method)
    (resource : String) (body : Json) (qs : List (String × QVal))
    (uri : Option String) : Except ItemError HttpRequestOptions :=
  match creds? with
  | none => .error (.config credsMissingMsg)
  | some credentials =>
    let authHeader? : Except ItemError String :=
      if credentials.authentication = "basic" then
        .ok ("Basic " ++
          base64Encode (strUtf8 (credentials.username ++ ":" ++ credentials.password)))
      else if credentials.authentication = "pat" then
        .ok ("Bearer " ++ credentials.pat)
      else
        .error (.config invalidAuthMsg)
    match authHeader? with
    | .error e => .error e
    | .ok authHeader =>
      .ok { baseURL := credentials.baseUrl
            url := match uri with
                   | some u => if u = "" then resource else u
                   | none => resource
            method := method
            body := body
            qs := qs
            json := true
            headers := [("Content-Type", "application/json"),
                        ("Accept", "application/json"),
                        ("Authorization", authHeader)] }

/-- The `options` collection parameter of an item: `fields` (empty string when
unset, both falsy), `limit` and `skip` (`none` when unset). -/
structure ItemOptions where
  fields : String
  limit : Option Int
  skip : Option Int

/-- Per-item parameter values as bound by the host. -/
structure Item where
  workItemId : String
  documentId : String
  projectId : String
  resourceId : String
  query : String
  data : String
  options : ItemOptions

/-- The request assembled by the dispatch loop before calling the helper. -/
structure RequestSpec where
  method : Method
  url : String
  qs : List (String × QVal)
  body : Json

/-- The ten resources handled by the generic branch of the routing. -/
def simpleResources : List String :=
  ["users", "enumerations", "jobs", "collections", "plans", "pages",
   "testRuns", "testRecords", "testSteps", "approvals"]

/-- All thirteen resource tags of the fixed enumeration. -/
def allResources : List String :=
  "workItems" :: "documents" :: "projects" :: simpleResources

/-- The five operations. -/
def allOps : List String := ["list", "get", "create", "update", "delete"]

/-- Query-string assembly of `Polarion.execute` (lines 329-336): `fields` when
truthy, and for `list` the defaulted `limit` and `skip`. -/
def buildQs (operation : String) (o : ItemOptions) : List (String × QVal) :=
  (if o.fields = "" then [] else [("fields", QVal.s o.fields)]) ++
  (if operation = "list" then
    [("limit", QVal.n (jsOrInt o.limit 50)), ("skip", QVal.n (jsOrInt o.skip 0))]
   else [])

/-- Method and body selection (lines 339-345): create/update parse the JSON
payload (`parse` models `JSON.parse`, returning the thrown message on
failure) and assign it onto the empty body; delete sets DELETE; otherwise GET
with an empty body. -/
def buildMethodBody (parse : String → Except String Json) (operation : String)
    (rawData : String) : Except ItemError (Method × Json) :=
  if operation = "create" ∨ operation = "update" then
    match parse rawData with
    | .error m => .error (.payloadParse m)
    | .ok j =>
      .ok ((if operation = "create" then Method.POST else Method.PUT),
           Json.obj (assignJson [] j))
  else if operation = "delete" then .ok (Method.DELETE, Json.obj [])
  else .ok (Method.GET, Json.obj [])

/-- Resource routing (lines 349-383): appends the identifier for
get/update/delete (percent-encoding it for documents), attaches the PQL
`query` parameter for the work-items list, and rejects unknown resources. -/
def routeRequest (resource operation : String) (item : Item) (method : Method)
    (body : Json) (qs : List (String × QVal)) : Except ItemError RequestSpec :=
  let endpoint := "/" ++ resource
  if resource = "workItems" then
    if operation = "get" ∨ operation = "update" ∨ operation = "delete" then
      .ok ⟨method, endpoint ++ "/" ++ item.workItemId, qs, body⟩
    else if operation = "list" then
      .ok ⟨method, endpoint, qs ++ [("query", QVal.s item.query)], body⟩
    else
      .ok ⟨method, endpoint, qs, body⟩
  else if resource = "documents" then
    if operation = "get" ∨ operation = "update" ∨ operation = "delete" then
      .ok ⟨method, endpoint ++ "/" ++ encodeURIComponent item.documentId, qs, body⟩
    else
      .ok ⟨method, endpoint, qs, body⟩
  else if resource = "projects" then
    if operation = "get" ∨ operation = "update" ∨ operation = "delete" then
      .ok ⟨method, endpoint ++ "/" ++ item.projectId, qs, body⟩
    else
      .ok ⟨method, endpoint, qs, body⟩
  else if resource ∈ simpleResources then
    if operation = "get" ∨ operation = "update" ∨ operation = "delete" then
      .ok ⟨method, endpoint ++ "/" ++ item.resourceId, qs, body⟩
    else
      .ok ⟨method, endpoint, qs, body⟩
  else
    .error (.routing resource)

/-- The full per-item request assembly: query string, then method/body (the
payload parse happens before routing, as in the source `try` block), then
routing. -/
def buildRequest (parse : String → Except String Json) (resource operation : String)
    (item : Item) : Except ItemError RequestSpec :=
  match buildMethodBody parse operation item.data with
  | .error e => .error e
  | .ok (method, body) =>
    routeRequest resource operation item method body (buildQs operation item.options)

/-- One full item dispatch: build the request, run it through the helper and
the transport, and normalize the response. -/
def processItem (parse : String → Except String Json) (creds? : Option Credentials)
    (transport : HttpRequestOptions → Except String Json)
    (resource operation : String) (item : Item) : Except ItemError (List Json) :=
  match buildRequest parse resource operation item with
  | .error e => .error e
  | .ok spec =>
    match polarionApiRequest creds? spec.method spec.url spec.body spec.qs none with
    | .error e => .error e
    | .ok req =>
      match transport req with
      | .error m => .error (.requestFailed m)
      | .ok responseData =>
        match normalizeResponse responseData with
        | .error m => .error (.typeError m)
        | .ok recs => .ok recs

/-- The error record pushed under `continueOnFail`. -/
def errRecord (e : ItemError) (i : Nat) : Json :=
  Json.obj [("error", Json.str e.message), ("itemIndex", Json.num (Int.ofNat i))]

/-- The item loop of `Polarion.execute` (lines 320-406): the first argument of
the recursion is the current item index. Under fail-tolerant mode an item
error is recorded and the loop continues; otherwise it aborts. -/
def executeLoop (parse : String → Except String Json) (creds? : Option Credentials)
    (transport : Nat → HttpRequestOptions → Except String Json)
    (resource operation : String) (continueOnFail : Bool) :
    Nat → List Item → Except ItemError (List Json)
  | _, [] => .ok []
  | i, item :: rest =>
    match processItem parse creds? (transport i) resource operation item with
    | .ok recs =>
      match executeLoop parse creds? transport resource operation continueOnFail
          (i + 1) rest with
      | .ok out => .ok (recs ++ out)
      | .error e => .error e
    | .error e =>
      if continueOnFail then
        match executeLoop parse creds? transport resource operation continueOnFail
            (i + 1) rest with
        | .ok out => .ok (errRecord e i :: out)
        | .error e2 => .error e2
      else .error e

/-- Entry point of `Polarion.execute`: resource and operation are read once
(at index 0) and the loop starts at item 0. -/
def execute (parse : String → Except String Json) (creds? : Option Credentials)
    (transport : Nat → HttpRequestOptions → Except String Json)
    (resource operation : String) (continueOnFail : Bool)
    (items : List Item) : Except ItemError (List Json) :=
  executeLoop parse creds? transport resource operation continueOnFail 0 items

/-- The list of error records produced when every item from index `i` on
fails with the same error, one record per item. -/
def errRecList (e : ItemError) : Nat → Nat → List Json
  | _, 0 => []
  | i, n + 1 => errRecord e i :: errRecList e (i + 1) n

/-- Method of a successful dispatch result. -/
def okMethod : Except ItemError RequestSpec → Option Method
  | .ok s => some s.method
  | .error _ => none

/-- Resolved path of a successful dispatch result. -/
def okUrl : Except ItemError RequestSpec → Option String
  | .ok s => some s.url
  | .error _ => none

/-- A successful dispatch result carries the query parameter `(k, v)`. -/
def qsHas (r : Except ItemError RequestSpec) (k : String) (v : QVal) : Prop :=
  match r with
  | .ok s => (k, v) ∈ s.qs
  | .error _ => False

/-- A header of a successfully built request. -/
def okHeader (r : Except ItemError HttpRequestOptions) (k : String) : Option String :=
  match r with
  | .ok req => alookup req.headers k
  | .error _ => none

/-- Number of output records of a successful execution. -/
def okLength : Except ItemError (List Json) → Option Nat
  | .ok l => some l.length
  | .error _ => none

/-- Output record at position `j` of a successful execution. -/
def outAt (r : Except ItemError (List Json)) (j : Nat) : Option Json :=
  match r with
  | .ok l => l.get? j
  | .error _ => none

/-- Modelled from the spec: the HTTP method documented for each operation
in section 4.1 (GET by default, POST for create, PUT for update, DELETE for
delete). -/
def specMethodOf (operation : String) : Method :=
  if operation = "create" then .POST
  else if operation = "update" then .PUT
  else if operation = "delete" then .DELETE
  else .GET

/-- Modelled from the spec: the documented path pattern of section 4.1 step 4.
Get, update and delete append the resource's identifier (percent-encoded for
documents); list and create use the base path. -/
def specPathOf (resource operation : String) (item : Item) : String :=
  let base := "/" ++ resource
  if operation = "get" ∨ operation = "update" ∨ operation = "delete" then
    if resource = "workItems" then base ++ "/" ++ item.workItemId
    else if resource = "documents" then base ++ "/" ++ encodeURIComponent item.documentId
    else if resource = "projects" then base ++ "/" ++ item.projectId
    else base ++ "/" ++ item.resourceId
  else base

/-- Hexadecimal digits are never a slash. -/
lemma hexDigitChar_ne_slash (n : Nat) : hexDigitChar n ≠ '/' := by
  unfold hexDigitChar
  split
  next h =>
    have hall : ∀ c ∈ hexDigits, c ≠ '/' := by decide
    exact hall _ (hexDigits.get_mem n h)
  next => decide

/-- No character produced by encoding a single character is a slash. -/
lemma encChar_no_slash (a : Char) : ∀ c ∈ encChar a, c ≠ '/' := by
  intro c hc
  unfold encChar at hc
  split_ifs at hc with hu
  · simp at hc
    subst hc
    intro hslash
    subst hslash
    exact absurd hu (by decide)
  · simp [List.mem_flatMap, pctByte] at hc
    obtain ⟨b, _, hcb⟩ := hc
    rcases hcb with rfl | rfl | rfl
    · decide
    · exact hexDigitChar_ne_slash _
    · exact hexDigitChar_ne_slash _

/-- A percent-encoded identifier contains no slash, so it cannot introduce a
path separator. -/
lemma encodeURIComponent_no_slash (s : String) :
    ∀ c ∈ (encodeURIComponent s).data, c ≠ '/' := by
  intro c hc
  have hc' : c ∈ s.data.flatMap encChar := hc
  obtain ⟨a, _, ha⟩ := List.mem_flatMap.1 hc'
  exact encChar_no_slash a c ha

/-- A successful dispatch factors through method/body selection and routing. -/
lemma buildRequest_ok_inv (parse : String → Except String Json)
    (r op : String) (item : Item) (spec : RequestSpec)
    (h : buildRequest parse r op item = .ok spec) :
    ∃ m b, buildMethodBody parse op item.data = .ok (m, b) ∧
      routeRequest r op item m b (buildQs op item.options) = .ok spec := by
  cases hmb : buildMethodBody parse op item.data with
  | error e => simp [buildRequest, hmb] at h
  | ok mb =>
    obtain ⟨m, b⟩ := mb
    exact ⟨m, b, rfl, by simpa [buildRequest, hmb] using h⟩

/-- When the method/body selection succeeds, dispatch is exactly routing. -/
lemma buildRequest_eq_route (parse : String → Except String Json)
    (op : String) (item : Item) (m : Method) (b : Json)
    (hmb : buildMethodBody parse op item.data = .ok (m, b)) (r : String) :
    buildRequest parse r op item =
      routeRequest r op item m b (buildQs op item.options) := by
  simp [buildRequest, hmb]

/-- Routing leaves the query string unchanged except for the work-items list,
which appends the PQL `query` parameter. -/
lemma routeRequest_qs_inv (r op : String) (item : Item) (m : Method) (b : Json)
    (qs : List (String × QVal)) (spec : RequestSpec)
    (h : routeRequest r op item m b qs = .ok spec) :
    spec.qs = qs ∨
      (op = "list" ∧ r = "workItems" ∧
        spec.qs = qs ++ [("query", QVal.s item.query)]) := by
  unfold routeRequest at h
  split_ifs at h <;>
    first
      | exact Except.noConfusion h
      | (injection h with h
         subst h
         first
           | exact Or.inl rfl
           | exact Or.inr ⟨by assumption, by assumption, rfl⟩)

/-- Routing of an unknown resource tag fails defensively. -/
lemma routeRequest_unknown (r op : String) (item : Item) (m : Method) (b : Json)
    (qs : List (String × QVal)) (h1 : r ≠ "workItems") (h2 : r ≠ "documents")
    (h3 : r ≠ "projects") (hs : r ∉ simpleResources) :
    routeRequest r op item m b qs = .error (.routing r) := by
  simp [routeRequest, h1, h2, h3, hs]

/-- The query string of a non-list operation holds at most the `fields`
parameter. -/
lemma buildQs_not_list_eq (op : String) (h : ¬ op = "list") (o : ItemOptions) :
    buildQs op o = if o.fields = "" then [] else [("fields", QVal.s o.fields)] := by
  simp [buildQs, h]

section ExecLoop

variable (parse : String → Except String Json) (creds? : Option Credentials)
variable (transport : Nat → HttpRequestOptions → Except String Json)
variable (resource operation : String)

/-- If every item from loop index `i` on succeeds with a single record, the
fail-tolerant loop returns one record per item. -/
lemma loop_all_single (items : List Item) : ∀ i : Nat,
    (∀ p it, items.get? p = some it →
      ∃ rec, processItem parse creds? (transport (i + p)) resource operation it =
        .ok [rec]) →
    ∃ out, executeLoop parse creds? transport resource operation true i items =
        .ok out ∧ out.length = items.length := by
  induction items with
  | nil => intro i _; exact ⟨[], rfl, rfl⟩
  | cons item rest ih =>
    intro i h
    obtain ⟨rec, hrec⟩ := h 0 item rfl
    simp only [Nat.add_zero] at hrec
    obtain ⟨out, hout, hlen⟩ := ih (i + 1) (fun p it hp => by
      have h2 := h (p + 1) it (by simpa using hp)
      rwa [show i + (p + 1) = i + 1 + p by omega] at h2)
    exact ⟨rec :: out, by simp [executeLoop, hrec, hout], by simp [hlen]⟩

/-- Fail-tolerant loop with exactly one failing item (at offset `j`), all
other items yielding one record each: one record per item, the failing one
replaced by its error record. -/
lemma loop_one_fail (items : List Item) : ∀ (i j : Nat) (e : ItemError),
    j < items.length →
    (∀ p it, items.get? p = some it → p ≠ j →
      ∃ rec, processItem parse creds? (transport (i + p)) resource operation it =
        .ok [rec]) →
    (∀ it, items.get? j = some it →
      processItem parse creds? (transport (i + j)) resource operation it =
        .error e) →
    ∃ out, executeLoop parse creds? transport resource operation true i items =
        .ok out ∧ out.length = items.length ∧
        out.get? j = some (errRecord e (i + j)) := by
  induction items with
  | nil => intro i j e hj _ _; simp at hj
  | cons item rest ih =>
    intro i j e hj hs hf
    cases j with
    | zero =>
      have herr := hf item rfl
      simp only [Nat.add_zero] at herr
      obtain ⟨out, hout, hlen⟩ :=
        loop_all_single parse creds? transport resource operation rest (i + 1)
          (fun p it hp => by
            have h2 := hs (p + 1) it (by simpa using hp) (by omega)
            rwa [show i + (p + 1) = i + 1 + p by omega] at h2)
      exact ⟨errRecord e i :: out, by simp [executeLoop, herr, hout],
        by simp [hlen], by simp⟩
    | succ jj =>
      obtain ⟨rec, hrec⟩ := hs 0 item rfl (by omega)
      simp only [Nat.add_zero] at hrec
      obtain ⟨out, hout, hlen, hat⟩ := ih (i + 1) jj e (by simpa using hj)
        (fun p it hp hne => by
          have h2 := hs (p + 1) it (by simpa using hp) (by omega)
          rwa [show i + (p + 1) = i + 1 + p by omega] at h2)
        (fun it hit => by
          have h2 := hf it (by simpa using hit)
          rwa [show i + (jj + 1) = i + 1 + jj by omega] at h2)
      refine ⟨rec :: out, by simp [executeLoop, hrec, hout], by simp [hlen], ?_⟩
      simpa [show i + 1 + jj = i + (jj + 1) by omega] using hat

/-- Without fail-tolerant mode, the first failing item aborts the loop with
its error and no output records at all. -/
lemma loop_fail_fast (items : List Item) : ∀ (i j : Nat) (e : ItemError),
    j < items.length →
    (∀ p it, items.get? p = some it → p < j →
      ∃ recs, processItem parse creds? (transport (i + p)) resource operation it =
        .ok recs) →
    (∀ it, items.get? j = some it →
      processItem parse creds? (transport (i + j)) resource operation it =
        .error e) →
    executeLoop parse creds? transport resource operation false i items =
      .error e := by
  induction items with
  | nil => intro i j e hj _ _; simp at hj
  | cons item rest ih =>
    intro i j e hj hs hf
    cases j with
    | zero =>
      have herr := hf item rfl
      simp only [Nat.add_zero] at herr
      simp [executeLoop, herr]
    | succ jj =>
      obtain ⟨recs, hrec⟩ := hs 0 item rfl (by omega)
      simp only [Nat.add_zero] at hrec
      have hrest := ih (i + 1) jj e (by simpa using hj)
        (fun p it hp hlt => by
          have h2 := hs (p + 1) it (by simpa using hp) (by omega)
          rwa [show i + (p + 1) = i + 1 + p by omega] at h2)
        (fun it hit => by
          have h2 := hf it (by simpa using hit)
          rwa [show i + (jj + 1) = i + 1 + jj by omega] at h2)
      simp [executeLoop, hrec, hrest]

/-- If every item fails with the same error, the fail-tolerant loop yields
one error record per item. -/
lemma loop_all_fail (e : ItemError) (items : List Item) : ∀ i : Nat,
    (∀ p it, items.get? p = some it →
      processItem parse creds? (transport (i + p)) resource operation it =
        .error e) →
    executeLoop parse creds? transport resource operation true i items =
      .ok (errRecList e i items.length) := by
  induction items with
  | nil => intro i _; rfl
  | cons item rest ih =>
    intro i h
    have herr := h 0 item rfl
    simp only [Nat.add_zero] at herr
    have hout := ih (i + 1) (fun p it hp => by
      have h2 := h (p + 1) it (by simpa using hp)
      rwa [show i + (p + 1) = i + 1 + p by omega] at h2)
    simp [executeLoop, herr, hout, errRecList]

end ExecLoop

/-- A trivially succeeding JSON parse, for concrete runs. -/
def cParse : String → Except String Json := fun _ => .ok (Json.obj [])

/-- A JSON parse that always fails, modelling `JSON.parse` throwing. -/
def pBad : String → Except String Json := fun _ => .error "Unexpected token"

/-- Concrete basic-auth credentials. -/
def basicCreds : Credentials :=
  ⟨"https://pol.example/polarion/api/rest/v1", "basic", "user", "pass", ""⟩

/-- Concrete PAT credentials. -/
def patCreds : Credentials :=
  ⟨"https://pol.example/polarion/api/rest/v1", "pat", "", "", "tok123"⟩

/-- Credentials with an unsupported authentication method. -/
def badCreds : Credentials :=
  ⟨"https://pol.example/polarion/api/rest/v1", "oauth", "", "", ""⟩

/-- Concrete stored credential option, basic auth `u:p`. -/
def cCreds : Option Credentials :=
  some ⟨"https://pol.example/polarion/api/rest/v1", "basic", "u", "p", ""⟩

/-- A concrete input item with empty options. -/
def sampleItem : Item :=
  ⟨"W-1", "A/B", "P", "R", "status:open", "{}", ⟨"", none, none⟩⟩

/-- A concrete input item with explicit zero limit and skip. -/
def zeroOptItem : Item :=
  ⟨"W-1", "A/B", "P", "R", "status:open", "{}", ⟨"", some 0, some 0⟩⟩

/-- A concrete input item with a fields selection. -/
def fieldsItem : Item :=
  ⟨"W-1", "A/B", "P", "R", "status:open", "{}", ⟨"id,title", none, none⟩⟩

/-- A transport that always succeeds with an empty object. -/
def cOkTransport : Nat → HttpRequestOptions → Except String Json :=
  fun _ _ => .ok (Json.obj [])

/-- A transport failing on the first item and answering the second with a
two-element `data` array. -/
def c2Transport : Nat → HttpRequestOptions → Except String Json := fun i _ =>
  if i = 0 then .error "boom"
  else .ok (Json.obj [("data", Json.arr
    [Json.obj [("id", Json.str "a")], Json.obj [("id", Json.str "b")]])])

/-- A transport failing on the first item and answering every other with a
single bare object. -/
def c2wTransport : Nat → HttpRequestOptions → Except String Json := fun i _ =>
  if i = 0 then .error "boom" else .ok (Json.obj [("id", Json.str "a")])

/-- C4: every request built by the helper carries an `Authorization` header —
`Basic ` plus the base64 of `username:password` for basic auth, `Bearer `
plus the stored token for PAT auth — and any other configured method makes
the helper fail with the configuration error before a request exists. -/
theorem c4_auth_header (creds : Credentials) (method : Method)
    (resourcePath : String) (body : Json) (qs : List (String × QVal))
    (uri : Option String) :
    (creds.authentication = "basic" →
      okHeader (polarionApiRequest (some creds) method resourcePath body qs uri)
          "Authorization" =
        some ("Basic " ++
          base64Encode (strUtf8 (creds.username ++ ":" ++ creds.password)))) ∧
    (creds.authentication = "pat" →
      okHeader (polarionApiRequest (some creds) method resourcePath body qs uri)
          "Authorization" = some ("Bearer " ++ creds.pat)) ∧
    (creds.authentication ≠ "basic" → creds.authentication ≠ "pat" →
      polarionApiRequest (some creds) method resourcePath body qs uri =
        .error (.config invalidAuthMsg)) ∧
    (∀ req, polarionApiRequest (some creds) method resourcePath body qs uri =
        .ok req → alookup req.headers "Authorization" ≠ none) := by
  refine ⟨?_, ?_, ?_, ?_⟩
  · intro hb
    simp [polarionApiRequest, hb, okHeader, alookup]
  · intro hp
    by_cases hb : creds.authentication = "basic"
    · rw [hb] at hp
      exact absurd hp (by decide)
    · simp [polarionApiRequest, hb, hp, okHeader, alookup]
  · intro hb hp
    simp [polarionApiRequest, hb, hp]
  · intro req hreq
    by_cases hb : creds.authentication = "basic"
    · simp [polarionApiRequest, hb] at hreq
      subst hreq
      simp [alookup]
    · by_cases hp : creds.authentication = "pat"
      · simp [polarionApiRequest, hb, hp] at hreq
        subst hreq
        simp [alookup]
      · simp [polarionApiRequest, hb, hp] at hreq

theorem c4_witness :
    okHeader (polarionApiRequest (some basicCreds) Method.GET "/projects"
        (Json.obj []) [] none) "Authorization" = some "Basic dXNlcjpwYXNz" ∧
    okHeader (polarionApiRequest (some patCreds) Method.GET "/projects"
        (Json.obj []) [] none) "Authorization" = some "Bearer tok123" ∧
    polarionApiRequest (some badCreds) Method.GET "/projects"
        (Json.obj []) [] none = .error (.config invalidAuthMsg) := by
  refine ⟨?_, ?_, ?_⟩
  · exact ((c4_auth_header basicCreds Method.GET "/projects" (Json.obj []) []
      none).1 rfl).trans rfl
  · exact ((c4_auth_header patCreds Method.GET "/projects" (Json.obj []) []
      none).2.1 rfl).trans rfl
  · exact (c4_auth_header badCreds Method.GET "/projects" (Json.obj []) []
      none).2.2.1 (by decide) (by decide)

/-- C7 counterexample: a null decoded response is not appended as a single
output record — the `data` property access throws a TypeError, which
surfaces as an item-scoped error (recorded as an `{error, itemIndex}` record
under fail-tolerant mode). -/
theorem c7_counterexample :
    normalizeResponse Json.null = .error nullDataAccessMsg ∧
    normalizeResponse Json.null ≠ .ok [Json.null] ∧
    processItem cParse cCreds (fun _ => .ok Json.null) "projects" "list"
        sampleItem = .error (.typeError nullDataAccessMsg) ∧
    execute cParse cCreds (fun _ _ => .ok Json.null) "projects" "list" true
        [sampleItem] = .ok [errRecord (.typeError nullDataAccessMsg) 0] :=
  ⟨rfl, fun h => Except.noConfusion h, rfl, rfl⟩

/-- C7 (amended): a decoded response with a `data` array flattens to its
elements, a bare array flattens to its elements, and any other non-null
response yields exactly one output record; a null response makes the `data`
property access throw, which is handled as an item-scoped error. -/
theorem c7_normalize (r : Json) :
    (∀ elems, jget r "data" = some (Json.arr elems) →
      normalizeResponse r = .ok elems) ∧
    (∀ elems, r = Json.arr elems → normalizeResponse r = .ok elems) ∧
    (r ≠ Json.null →
      (∀ elems, jget r "data" ≠ some (Json.arr elems)) →
      (∀ elems, r ≠ Json.arr elems) → normalizeResponse r = .ok [r]) ∧
    (r = Json.null → normalizeResponse r = .error nullDataAccessMsg) := by
  refine ⟨?_, ?_, ?_, ?_⟩
  · intro elems h
    cases r with
    | null => simp [jget] at h
    | _ => simp [normalizeResponse, h]
  · intro elems h
    subst h
    simp [normalizeResponse, jget]
  · intro hnull h1 h2
    cases r with
    | null => exact absurd rfl hnull
    | arr elems => exact absurd rfl (h2 elems)
    | obj fs =>
      unfold normalizeResponse
      cases hd : jget (Json.obj fs) "data" with
      | none => simp [hd]
      | some v =>
        cases v with
        | arr elems => exact absurd hd (h1 elems)
        | _ => simp [hd]
    | _ => rfl
  · intro h
    subst h
    rfl

theorem c7_witness :
    normalizeResponse (Json.obj [("data", Json.arr [Json.null])]) =
      .ok [Json.null] :=
  (c7_normalize (Json.obj [("data", Json.arr [Json.null])])).1 [Json.null] rfl

/-- C6: a list dispatch with no limit and no skip option carries limit 50 and
skip 0 in the query string; a non-list dispatch never carries either
parameter. -/
theorem c6_list_defaults (parse : String → Except String Json) (r op : String)
    (item : Item) (spec : RequestSpec)
    (h : buildRequest parse r op item = .ok spec) :
    (op = "list" → item.options.limit = none → item.options.skip = none →
      ("limit", QVal.n 50) ∈ spec.qs ∧ ("skip", QVal.n 0) ∈ spec.qs) ∧
    (op ≠ "list" → ∀ v : QVal,
      ("limit", v) ∉ spec.qs ∧ ("skip", v) ∉ spec.qs) := by
  obtain ⟨m, b, hmb, hroute⟩ := buildRequest_ok_inv parse r op item spec h
  have hqs := routeRequest_qs_inv r op item m b (buildQs op item.options) spec hroute
  constructor
  · intro hop hl hs
    have hbase : ("limit", QVal.n 50) ∈ buildQs op item.options ∧
        ("skip", QVal.n 0) ∈ buildQs op item.options := by
      subst hop
      constructor <;> simp [buildQs, hl, hs, jsOrInt]
    rcases hqs with hq | ⟨_, _, hq⟩ <;> rw [hq]
    · exact hbase
    · exact ⟨List.mem_append_left _ hbase.1, List.mem_append_left _ hbase.2⟩
  · intro hop v
    have hb : ∀ (k : String) (w : QVal), (k, w) ∈ buildQs op item.options →
        k = "fields" := by
      intro k w hk
      rw [buildQs_not_list_eq op hop] at hk
      split_ifs at hk with hf
      · simp at hk
      · simp at hk
        exact hk.1
    rcases hqs with hq | ⟨hl, _, _⟩
    · rw [hq]
      constructor <;> intro hmem <;> exact absurd (hb _ _ hmem) (by decide)
    · exact absurd hl hop

theorem c6_witness :
    (("limit", QVal.n 50) ∈
        ([("limit", QVal.n 50), ("skip", QVal.n 0)] : List (String × QVal)) ∧
      ("skip", QVal.n 0) ∈
        ([("limit", QVal.n 50), ("skip", QVal.n 0)] : List (String × QVal))) ∧
    (∀ v : QVal, ("limit", v) ∉ ([] : List (String × QVal)) ∧
      ("skip", v) ∉ ([] : List (String × QVal))) := by
  constructor
  · exact (c6_list_defaults cParse "projects" "list" sampleItem
      ⟨Method.GET, "/projects", [("limit", QVal.n 50), ("skip", QVal.n 0)],
        Json.obj []⟩ rfl).1 rfl rfl rfl
  · exact (c6_list_defaults cParse "projects" "get" sampleItem
      ⟨Method.GET, "/projects/P", [], Json.obj []⟩ rfl).2 (by decide)

/-- C9: an explicitly supplied zero limit is replaced by the default 50 (the
default is applied by a falsiness check), while an explicitly supplied zero
skip is sent as 0. -/
theorem c9_falsy_limit (parse : String → Except String Json) (r : String)
    (item : Item) (spec : RequestSpec)
    (h : buildRequest parse r "list" item = .ok spec)
    (hl : item.options.limit = some 0) (hs : item.options.skip = some 0) :
    ("limit", QVal.n 50) ∈ spec.qs ∧ ("skip", QVal.n 0) ∈ spec.qs := by
  obtain ⟨m, b, hmb, hroute⟩ := buildRequest_ok_inv parse r "list" item spec h
  have hqs := routeRequest_qs_inv r "list" item m b
    (buildQs "list" item.options) spec hroute
  have hbase : ("limit", QVal.n 50) ∈ buildQs "list" item.options ∧
      ("skip", QVal.n 0) ∈ buildQs "list" item.options := by
    constructor <;> simp [buildQs, hl, hs, jsOrInt]
  rcases hqs with hq | ⟨_, _, hq⟩ <;> rw [hq]
  · exact hbase
  · exact ⟨List.mem_append_left _ hbase.1, List.mem_append_left _ hbase.2⟩

theorem c9_witness :
    ("limit", QVal.n 50) ∈
      ([("limit", QVal.n 50), ("skip", QVal.n 0)] : List (String × QVal)) ∧
    ("skip", QVal.n 0) ∈
      ([("limit", QVal.n 50), ("skip", QVal.n 0)] : List (String × QVal)) :=
  c9_falsy_limit cParse "projects" zeroOptItem
    ⟨Method.GET, "/projects", [("limit", QVal.n 50), ("skip", QVal.n 0)],
      Json.obj []⟩ rfl rfl rfl

/-- C10: a non-empty fields option is attached to the query string for every
operation, and an empty fields string is never attached. -/
theorem c10_fields (parse : String → Except String Json) (r op : String)
    (item : Item) (spec : RequestSpec)
    (h : buildRequest parse r op item = .ok spec) :
    (item.options.fields ≠ "" →
      ("fields", QVal.s item.options.fields) ∈ spec.qs) ∧
    (item.options.fields = "" → ∀ v : QVal, ("fields", v) ∉ spec.qs) := by
  obtain ⟨m, b, hmb, hroute⟩ := buildRequest_ok_inv parse r op item spec h
  have hqs := routeRequest_qs_inv r op item m b (buildQs op item.options) spec hroute
  constructor
  · intro hf
    have hbase : ("fields", QVal.s item.options.fields) ∈ buildQs op item.options := by
      simp [buildQs, hf]
    rcases hqs with hq | ⟨_, _, hq⟩ <;> rw [hq]
    · exact hbase
    · exact List.mem_append_left _ hbase
  · intro hf v
    have hb : ("fields", v) ∉ buildQs op item.options := by
      simp [buildQs, hf]
    rcases hqs with hq | ⟨_, _, hq⟩ <;> rw [hq]
    · exact hb
    · intro hmem
      rcases List.mem_append.1 hmem with hmem | hmem
      · exact hb hmem
      · simp at hmem

theorem c10_witness :
    ("fields", QVal.s "id,title") ∈
      ([("fields", QVal.s "id,title")] : List (String × QVal)) :=
  (c10_fields cParse "users" "delete" fieldsItem
    ⟨Method.DELETE, "/users/R", [("fields", QVal.s "id,title")],
      Json.obj []⟩ rfl).1 (by decide)

/-- C5: for get/update/delete, the document identifier appears
percent-encoded in the resolved path (and the encoding can never contain a
slash), while work-item, project and simple-resource identifiers appear
verbatim. -/
theorem c5_identifier_encoding (parse : String → Except String Json)
    (r op : String) (item : Item) (spec : RequestSpec)
    (h : buildRequest parse r op item = .ok spec)
    (hop : op = "get" ∨ op = "update" ∨ op = "delete") :
    (r = "documents" →
      spec.url = "/documents/" ++ encodeURIComponent item.documentId ∧
      ∀ c ∈ (encodeURIComponent item.documentId).data, c ≠ '/') ∧
    (r = "workItems" → spec.url = "/workItems/" ++ item.workItemId) ∧
    (r = "projects" → spec.url = "/projects/" ++ item.projectId) ∧
    (r ∈ simpleResources → spec.url = "/" ++ r ++ "/" ++ item.resourceId) := by
  obtain ⟨m, b, hmb, hroute⟩ := buildRequest_ok_inv parse r op item spec h
  refine ⟨?_, ?_, ?_, ?_⟩
  · rintro rfl
    rcases hop with rfl | rfl | rfl <;>
      · simp [routeRequest] at hroute
        subst hroute
        exact ⟨rfl, encodeURIComponent_no_slash item.documentId⟩
  · rintro rfl
    rcases hop with rfl | rfl | rfl <;>
      · simp [routeRequest] at hroute
        subst hroute
        rfl
  · rintro rfl
    rcases hop with rfl | rfl | rfl <;>
      · simp [routeRequest] at hroute
        subst hroute
        rfl
  · intro hr
    fin_cases hr <;> rcases hop with rfl | rfl | rfl <;>
      · simp [routeRequest, simpleResources] at hroute
        subst hroute
        rfl

theorem c5_witness :
    (("/documents/A%2FB" : String) =
      "/documents/" ++ encodeURIComponent sampleItem.documentId) ∧
    (∀ c ∈ (encodeURIComponent sampleItem.documentId).data, c ≠ '/') :=
  (c5_identifier_encoding cParse "documents" "get" sampleItem
    ⟨Method.GET, "/documents/A%2FB", [], Json.obj []⟩ rfl (Or.inl rfl)).1 rfl

/-- C8: on create or update the supplied payload text is parsed; a parse
failure is an item-scoped error (recorded and skipped over under
fail-tolerant mode), and a parse success sets POST (create) or PUT (update)
with the parsed value assigned onto the request body. -/
theorem c8_payload (parse : String → Except String Json) (resource operation : String)
    (item : Item) (hop : operation = "create" ∨ operation = "update") :
    (∀ m, parse item.data = .error m →
      buildRequest parse resource operation item = .error (.payloadParse m) ∧
      (∀ creds? transport,
        processItem parse creds? transport resource operation item =
          .error (.payloadParse m)) ∧
      (∀ creds? (transport : Nat → HttpRequestOptions → Except String Json)
          rest outRest,
        executeLoop parse creds? transport resource operation true 1 rest =
          .ok outRest →
        executeLoop parse creds? transport resource operation true 0
            (item :: rest) =
          .ok (errRecord (.payloadParse m) 0 :: outRest))) ∧
    (∀ j, parse item.data = .ok j →
      buildMethodBody parse operation item.data =
        .ok ((if operation = "create" then Method.POST else Method.PUT),
             Json.obj (assignJson [] j))) := by
  constructor
  · intro m hm
    have hb : buildRequest parse resource operation item =
        .error (.payloadParse m) := by
      rcases hop with rfl | rfl <;> simp [buildRequest, buildMethodBody, hm]
    refine ⟨hb, ?_, ?_⟩
    · intro creds? transport
      simp [processItem, hb]
    · intro creds? transport rest outRest hrest
      have hpi : processItem parse creds? (transport 0) resource operation item =
          .error (.payloadParse m) := by
        simp [processItem, hb]
      simp [executeLoop, hpi, hrest]
  · intro j hj
    rcases hop with rfl | rfl <;> simp [buildMethodBody, hj]

theorem c8_witness :
    buildRequest pBad "projects" "create" sampleItem =
      .error (.payloadParse "Unexpected token") ∧
    buildMethodBody cParse "create" sampleItem.data =
      .ok (Method.POST, Json.obj (assignJson [] (Json.obj []))) := by
  constructor
  · exact ((c8_payload pBad "projects" "create" sampleItem (Or.inl rfl)).1
      "Unexpected token" rfl).1
  · have h2 := (c8_payload cParse "projects" "create" sampleItem (Or.inl rfl)).2
      (Json.obj []) rfl
    simpa using h2

/-- C2 counterexample: two items under fail-tolerant mode, exactly one of
which (index 0) fails with an item-scoped request failure; the succeeding
item's response flattens to two records, so the batch yields three output
records, not two. -/
theorem c2_counterexample :
    processItem cParse cCreds (c2Transport 0) "projects" "list" sampleItem =
      .error (.requestFailed "boom") ∧
    processItem cParse cCreds (c2Transport 1) "projects" "list" sampleItem =
      .ok [Json.obj [("id", Json.str "a")], Json.obj [("id", Json.str "b")]] ∧
    execute cParse cCreds c2Transport "projects" "list" true
        [sampleItem, sampleItem] =
      .ok [errRecord (.requestFailed "boom") 0,
           Json.obj [("id", Json.str "a")], Json.obj [("id", Json.str "b")]] ∧
    okLength (execute cParse cCreds c2Transport "projects" "list" true
        [sampleItem, sampleItem]) = some 3 :=
  ⟨rfl, rfl, rfl, rfl⟩

/-- C2 (amended): under fail-tolerant mode, a batch with exactly one failing
item in which every other item's response normalizes to a single record
yields one output record per item, the failing index carrying its error
record; with fail-tolerant mode off the same batch aborts with the error and
produces no output records. -/
theorem c2_fail_tolerant (parse : String → Except String Json)
    (creds? : Option Credentials)
    (transport : Nat → HttpRequestOptions → Except String Json)
    (resource operation : String) (items : List Item) (j : Nat) (e : ItemError)
    (hj : j < items.length)
    (hsucc : ∀ p it, items.get? p = some it → p ≠ j →
      ∃ rec, processItem parse creds? (transport p) resource operation it =
        .ok [rec])
    (hfail : ∀ it, items.get? j = some it →
      processItem parse creds? (transport j) resource operation it = .error e) :
    okLength (execute parse creds? transport resource operation true items) =
      some items.length ∧
    outAt (execute parse creds? transport resource operation true items) j =
      some (errRecord e j) ∧
    execute parse creds? transport resource operation false items = .error e := by
  obtain ⟨out, hout, hlen, hat⟩ :=
    loop_one_fail parse creds? transport resource operation items 0 j e hj
      (fun p it hp hne => by simpa using hsucc p it hp hne)
      (fun it hit => by simpa using hfail it hit)
  have h2 := loop_fail_fast parse creds? transport resource operation items 0 j e hj
    (fun p it hp hlt => by
      obtain ⟨rec, hr⟩ := hsucc p it hp (by omega)
      exact ⟨[rec], by simpa using hr⟩)
    (fun it hit => by simpa using hfail it hit)
  refine ⟨?_, ?_, ?_⟩
  · simp [execute, hout, okLength, hlen]
  · rw [execute, hout]
    simpa [outAt] using hat
  · simpa [execute] using h2

theorem c2_witness :
    okLength (execute cParse cCreds c2wTransport "projects" "list" true
        [sampleItem, sampleItem]) = some 2 ∧
    outAt (execute cParse cCreds c2wTransport "projects" "list" true
        [sampleItem, sampleItem]) 0 = some (errRecord (.requestFailed "boom") 0) ∧
    execute cParse cCreds c2wTransport "projects" "list" false
        [sampleItem, sampleItem] = .error (.requestFailed "boom") := by
  refine c2_fail_tolerant cParse cCreds c2wTransport "projects" "list"
    [sampleItem, sampleItem] 0 (.requestFailed "boom") (by decide) ?_ ?_
  · intro p it hp hne
    match p, hp with
    | 0, hp => exact absurd rfl hne
    | 1, hp =>
      have hit : sampleItem = it := by simpa using hp
      subst hit
      exact ⟨Json.obj [("id", Json.str "a")], rfl⟩
    | n + 2, hp => simp at hp
  · intro it hit
    have hit' : sampleItem = it := by simpa using hit
    subst hit'
    rfl

/-- C3 counterexample: with the credential absent and fail-tolerant mode on,
the configuration error is recorded as a per-item record for item 0 and
processing continues to item 1, which records it again — contradicting the
claim that configuration errors are never item-recorded and always abort. -/
theorem c3_counterexample :
    execute cParse none cOkTransport "projects" "list" true
        [sampleItem, sampleItem] =
      .ok [Json.obj [("error", Json.str "Polarion credentials are not set."),
                     ("itemIndex", Json.num 0)],
           Json.obj [("error", Json.str "Polarion credentials are not set."),
                     ("itemIndex", Json.num 1)]] :=
  rfl

/-- C3 (amended): a configuration error — missing credential or unsupported
authentication method — raised while processing an item is item-scoped like
any other error: with fail-tolerant mode on, every item whose dispatch
reaches the request helper gets an `{error, itemIndex}` record and
processing continues through the whole batch; with it off, the first such
error aborts the execution. -/
theorem c3_config_item_scoped (parse : String → Except String Json)
    (transport : Nat → HttpRequestOptions → Except String Json)
    (resource operation : String) (items : List Item)
    (creds? : Option Credentials) (e : ItemError)
    (hconf : (creds? = none ∧ e = .config credsMissingMsg) ∨
      (∃ c, creds? = some c ∧ c.authentication ≠ "basic" ∧
        c.authentication ≠ "pat" ∧ e = .config invalidAuthMsg))
    (hbuild : ∀ p it, items.get? p = some it →
      ∃ spec, buildRequest parse resource operation it = .ok spec) :
    execute parse creds? transport resource operation true items =
      .ok (errRecList e 0 items.length) ∧
    (0 < items.length →
      execute parse creds? transport resource operation false items =
        .error e) := by
  have hPI : ∀ p it, items.get? p = some it →
      ∀ t, processItem parse creds? t resource operation it = .error e := by
    intro p it hp t
    obtain ⟨spec, hspec⟩ := hbuild p it hp
    rcases hconf with ⟨hc, he⟩ | ⟨c, hc, hba, hpa, he⟩ <;> subst hc <;> subst he
    · simp [processItem, hspec, polarionApiRequest]
    · simp [processItem, hspec, polarionApiRequest, hba, hpa]
  constructor
  · have h1 := loop_all_fail parse creds? transport resource operation
      e items 0 (fun p it hp => hPI p it hp _)
    simpa [execute] using h1
  · intro hlen
    cases items with
    | nil => simp at hlen
    | cons item rest =>
      have h2 := loop_fail_fast parse creds? transport resource operation
        (item :: rest) 0 0 e (by simp)
        (fun p it hp hlt => absurd hlt (by omega))
        (fun it hit => hPI 0 it hit _)
      simpa [execute] using h2

theorem c3_witness :
    (execute cParse none cOkTransport "projects" "list" true [sampleItem] =
        .ok (errRecList (.config credsMissingMsg) 0 [sampleItem].length) ∧
      (0 < [sampleItem].length →
        execute cParse none cOkTransport "projects" "list" false [sampleItem] =
          .error (.config credsMissingMsg))) ∧
    (execute cParse (some badCreds) cOkTransport "projects" "list" true
        [sampleItem] =
        .ok (errRecList (.config invalidAuthMsg) 0 [sampleItem].length) ∧
      (0 < [sampleItem].length →
        execute cParse (some badCreds) cOkTransport "projects" "list" false
            [sampleItem] =
          .error (.config invalidAuthMsg))) := by
  constructor
  · refine c3_config_item_scoped cParse cOkTransport "projects" "list"
      [sampleItem] none (.config credsMissingMsg) (Or.inl ⟨rfl, rfl⟩) ?_
    intro p it hp
    match p, hp with
    | 0, hp =>
      have hit : sampleItem = it := by simpa using hp
      subst hit
      exact ⟨_, rfl⟩
    | n + 1, hp => simp at hp
  · refine c3_config_item_scoped cParse cOkTransport "projects" "list"
      [sampleItem] (some badCreds) (.config invalidAuthMsg)
      (Or.inr ⟨badCreds, rfl, by decide, by decide, rfl⟩) ?_
    intro p it hp
    match p, hp with
    | 0, hp =>
      have hit : sampleItem = it := by simpa using hp
      subst hit
      exact ⟨_, rfl⟩
    | n + 1, hp => simp at hp

/-- Given a successful method/body selection whose method agrees with the
documented one, dispatch matches the documented method/path table on every
known resource and fails with a routing error on every unknown one. -/
lemma dispatch_table_aux (parse : String → Except String Json) (item : Item)
    (op : String) (m : Method) (b : Json)
    (hmb : buildMethodBody parse op item.data = .ok (m, b))
    (hm : m = specMethodOf op)
    (hops : op = "list" ∨ op = "get" ∨ op = "create" ∨ op = "update" ∨
      op = "delete") :
    (∀ r ∈ allResources,
      okMethod (buildRequest parse r op item) = some (specMethodOf op) ∧
      okUrl (buildRequest parse r op item) = some (specPathOf r op item) ∧
      (r = "workItems" → op = "list" →
        qsHas (buildRequest parse r op item) "query" (QVal.s item.query))) ∧
    (∀ r, r ∉ allResources →
      buildRequest parse r op item = .error (ItemError.routing r)) := by
  subst hm
  constructor
  · intro r hr
    have hr' : r = "workItems" ∨ r = "documents" ∨ r = "projects" ∨
        r = "users" ∨ r = "enumerations" ∨ r = "jobs" ∨ r = "collections" ∨
        r = "plans" ∨ r = "pages" ∨ r = "testRuns" ∨ r = "testRecords" ∨
        r = "testSteps" ∨ r = "approvals" := by
      simpa [allResources, simpleResources] using hr
    rw [buildRequest_eq_route parse op item _ _ hmb r]
    rcases hops with rfl | rfl | rfl | rfl | rfl <;>
      rcases hr' with rfl | rfl | rfl | rfl | rfl | rfl | rfl | rfl | rfl |
        rfl | rfl | rfl | rfl <;>
      exact ⟨rfl, rfl, by simp [qsHas, routeRequest]⟩
  · intro r hr
    rw [buildRequest_eq_route parse op item _ _ hmb r]
    simp only [allResources, List.mem_cons] at hr
    push_neg at hr
    exact routeRequest_unknown r op item _ _ _ hr.1 hr.2.1 hr.2.2.1 hr.2.2.2

/-- C1: for all 13 resources and 5 operations the dispatcher resolves the
documented method (GET by default, POST/PUT/DELETE for create/update/delete)
and the documented path (base `/resource` for list/create, identifier-suffixed
for get/update/delete), attaches the PQL query parameter for the work-items
list, and fails with a routing error on any resource tag outside the fixed
enumeration. -/
theorem c1_dispatch_table (parse : String → Except String Json) (item : Item)
    (op : String) (hop : op ∈ allOps)
    (hparse : op = "create" ∨ op = "update" → ∃ j, parse item.data = .ok j) :
    (∀ r ∈ allResources,
      okMethod (buildRequest parse r op item) = some (specMethodOf op) ∧
      okUrl (buildRequest parse r op item) = some (specPathOf r op item) ∧
      (r = "workItems" → op = "list" →
        qsHas (buildRequest parse r op item) "query" (QVal.s item.query))) ∧
    (∀ r, r ∉ allResources →
      buildRequest parse r op item = .error (ItemError.routing r)) := by
  have hop' : op = "list" ∨ op = "get" ∨ op = "create" ∨ op = "update" ∨
      op = "delete" := by simpa [allOps] using hop
  rcases hop' with rfl | rfl | rfl | rfl | rfl
  · exact dispatch_table_aux parse item "list" Method.GET (Json.obj []) rfl rfl
      (Or.inl rfl)
  · exact dispatch_table_aux parse item "get" Method.GET (Json.obj []) rfl rfl
      (Or.inr (Or.inl rfl))
  · obtain ⟨jv, hj⟩ := hparse (Or.inl rfl)
    exact dispatch_table_aux parse item "create" Method.POST
      (Json.obj (assignJson [] jv)) (by simp [buildMethodBody, hj]) rfl
      (Or.inr (Or.inr (Or.inl rfl)))
  · obtain ⟨jv, hj⟩ := hparse (Or.inr rfl)
    exact dispatch_table_aux parse item "update" Method.PUT
      (Json.obj (assignJson [] jv)) (by simp [buildMethodBody, hj]) rfl
      (Or.inr (Or.inr (Or.inr (Or.inl rfl))))
  · exact dispatch_table_aux parse item "delete" Method.DELETE (Json.obj [])
      rfl rfl (Or.inr (Or.inr (Or.inr (Or.inr rfl))))

theorem c1_witness :
    (okMethod (buildRequest cParse "projects" "get" sampleItem) =
        some (specMethodOf "get") ∧
      okUrl (buildRequest cParse "projects" "get" sampleItem) =
        some (specPathOf "projects" "get" sampleItem) ∧
      ("projects" = "workItems" → "get" = "list" →
        qsHas (buildRequest cParse "projects" "get" sampleItem) "query"
          (QVal.s sampleItem.query))) ∧
    buildRequest cParse "bogus" "get" sampleItem =
      .error (ItemError.routing "bogus") := by
  have h := c1_dispatch_table cParse sampleItem "get" (by decide)
    (fun hc => absurd hc (by decide))
  exact ⟨h.1 "projects" (by decide), h.2 "bogus" (by decide)⟩
